import Mathlib

/-!
Shallow embedding of `flbtool.py`, the FLB3 firmware container tool.

Byte buffers are modelled as `List Nat` (one element per byte).  Parsing
mirrors the Python slicing semantics exactly: Python slices clamp at the
buffer boundaries and `struct.unpack` fails when the final slice is shorter
than the format width, so the embedding uses `List.take` / `List.drop`
(which clamp the same way) together with explicit length guards.  Fallible
operations return `Option`.
-/

/-- Little-endian value of a byte list (`struct.unpack` of an unsigned int). -/
def leNat : List Nat → Nat
  | [] => 0
  | b :: bs => b + 256 * leNat bs

/-- Little-endian encoding of `n` on `w` bytes (`struct.pack` of an unsigned int). -/
def natLE : Nat → Nat → List Nat
  | 0, _ => []
  | w + 1, n => n % 256 :: natLE w (n / 256)

/-- `struct.pack` of an `s`-format field of width `w`: the string is truncated
or zero-padded to exactly `w` bytes. -/
def packStr (w : Nat) (s : List Nat) : List Nat :=
  s.take w ++ List.replicate (w - s.length) 0

/-- `str.replace("\x00", '')`: removes every null byte. -/
def stripNulls (s : List Nat) : List Nat :=
  s.filter (fun b => b ≠ 0)

/-- `str.encode('ascii')` succeeds exactly when every byte is below 128. -/
def asciiOk (s : List Nat) : Bool :=
  s.all (fun b => b < 128)

/-- The 98-byte FLB chunk header (`class FLBHeader`).  `description` is held
null-stripped in memory, as after `FLBHeader.parse`. -/
structure FLBHeader where
  magic : List Nat
  header_length : Nat
  unknown1 : Nat
  data_length : Nat
  delimiter : Nat
  description : List Nat
  version1 : Nat
  version2 : Nat
  version3 : Nat
deriving DecidableEq, Repr

/-- `FLBHeader.HEADERSIZE` -/
def FLBHeader.HEADERSIZE : Nat := 98

/-- `FLBHeader.parse`: `struct.unpack('<4sIBIH80s3B', firmware[0:98])`, then
null bytes are stripped from the description.  Fails iff fewer than 98 bytes
are supplied.  Returns the header; the source returns the constant consumed
count 98 (`FLBHeader.HEADERSIZE`), which the caller adds. -/
def FLBHeader.parse (firmware : List Nat) : Option FLBHeader :=
  if firmware.length < FLBHeader.HEADERSIZE then none
  else some
    { magic := firmware.take 4
      header_length := leNat ((firmware.drop 4).take 4)
      unknown1 := leNat ((firmware.drop 8).take 1)
      data_length := leNat ((firmware.drop 9).take 4)
      delimiter := leNat ((firmware.drop 13).take 2)
      description := stripNulls ((firmware.drop 15).take 80)
      version1 := leNat ((firmware.drop 95).take 1)
      version2 := leNat ((firmware.drop 96).take 1)
      version3 := leNat ((firmware.drop 97).take 1) }

/-- `FLBHeader.writeToFLB`: `struct.pack('<4sIBIH80s3B', magic.encode('ascii'),
header_length, unknown1, data_length, delimiter, description.encode('ascii'),
version1, version2, version3)`.  `encode('ascii')` fails on bytes ≥ 128 and
`struct.pack` fails on out-of-range integers; `4s`/`80s` silently truncate or
zero-pad. -/
def FLBHeader.writeToFLB (h : FLBHeader) : Option (List Nat) :=
  if asciiOk h.magic && asciiOk h.description
      && h.header_length < 2 ^ 32 && h.unknown1 < 2 ^ 8
      && h.data_length < 2 ^ 32 && h.delimiter < 2 ^ 16
      && h.version1 < 2 ^ 8 && h.version2 < 2 ^ 8 && h.version3 < 2 ^ 8 then
    some (packStr 4 h.magic ++ natLE 4 h.header_length ++ natLE 1 h.unknown1
      ++ natLE 4 h.data_length ++ natLE 2 h.delimiter ++ packStr 80 h.description
      ++ natLE 1 h.version1 ++ natLE 1 h.version2 ++ natLE 1 h.version3)
  else none

theorem leNat_natLE (w n : Nat) (h : n < 256 ^ w) : leNat (natLE w n) = n := by
  induction w generalizing n with
  | zero =>
    simp [natLE, leNat]
    omega
  | succ w ih =>
    have hdiv : n / 256 < 256 ^ w := by
      rw [Nat.div_lt_iff_lt_mul (by norm_num : 0 < 256)]
      calc n < 256 ^ (w + 1) := h
        _ = 256 ^ w * 256 := by ring
    simp [natLE, leNat, ih _ hdiv]
    omega

theorem natLE_length (w n : Nat) : (natLE w n).length = w := by
  induction w generalizing n with
  | zero => simp [natLE]
  | succ w ih => simp [natLE, ih]

theorem packStr_length (w : Nat) (s : List Nat) : (packStr w s).length = w := by
  simp [packStr]
  omega

/-- The 41-byte device-classification block (`class PCIDetails`). -/
structure PCIDetails where
  flb_type : Nat
  unknown : List Nat
deriving DecidableEq, Repr

/-- `PCIDetails.HEADERSIZE` -/
def PCIDetails.HEADERSIZE : Nat := 41

/-- `PCIDetails.FLB_TYPES`: the static table of known type codes.  It is only
consulted for logging (`logInfo`); parsing never rejects a code. -/
def PCIDetails.FLB_TYPES : List (Nat × String) :=
  [ (0x300, "FLB_PXE")
  , (0x800, "FLB_UEFI_DRIVER")
  , (0x1000, "FLB_ISCSI_OPTION")
  , (0x2000, "FLB_FCOE_OPTION")
  , (0x10000, "FLB_COMBO_RULES")
  , (0x100000, "FLB_CIVD_BIN")
  , (0x100001, "FLB_COMBO_IMAGE_VERSION_NAME")
  , (0x200000, "FLB_OCD_OPTION")
  , (0x800000, "FLB_CLP_LOADER")
  , (0x1000000, "FLB_ISCSI_SETUP")
  , (0x2000000, "FLB_40G_INTERFACE")
  , (0x10000000, "FLB_UEFI_X64_FCOE_DRIVER")
  , (0x20000000, "FLB_SIGNATURE")
  , (0x20000100, "FLB_SIGNATURE_2") ]

/-- `PCIDetails.parse`: `struct.unpack('<I37s', firmware[0:41])`; fails iff
fewer than 41 bytes are supplied.  Returns the record and the consumed count
41 (`PCIDetails.HEADERSIZE`). -/
def PCIDetails.parse (firmware : List Nat) : Option (PCIDetails × Nat) :=
  if firmware.length < PCIDetails.HEADERSIZE then none
  else some
    ( { flb_type := leNat (firmware.take 4)
        unknown := (firmware.drop 4).take 37 }
    , PCIDetails.HEADERSIZE )

/-- `PCIDetails.writeToFLB`: `struct.pack('<I37s', flb_type,
unknown.encode('ascii'))`. -/
def PCIDetails.writeToFLB (p : PCIDetails) : Option (List Nat) :=
  if p.flb_type < 2 ^ 32 && asciiOk p.unknown then
    some (natLE 4 p.flb_type ++ packStr 37 p.unknown)
  else none

/-- One 12-byte PCI device record (`class PCIDevice`). -/
structure PCIDevice where
  vendor : Nat
  device : Nat
  subvendor : Nat
  subdevice : Nat
  unk1 : Nat
  unk2 : Nat
deriving DecidableEq, Repr

/-- `PCIDevice.isValid`: nonzero in at least one field (the all-zero record is
the end-of-list sentinel). -/
def PCIDevice.isValid (d : PCIDevice) : Bool :=
  d.vendor > 0 || d.device > 0 || d.subvendor > 0 || d.subdevice > 0
    || d.unk1 > 0 || d.unk2 > 0

/-- `PCIDevice.writeToFLB`: `struct.pack('<6H', vendor, device, subvendor,
subdevice, unk1, unk2)`. -/
def PCIDevice.writeToFLB (d : PCIDevice) : Option (List Nat) :=
  if d.vendor < 2 ^ 16 && d.device < 2 ^ 16 && d.subvendor < 2 ^ 16
      && d.subdevice < 2 ^ 16 && d.unk1 < 2 ^ 16 && d.unk2 < 2 ^ 16 then
    some (natLE 2 d.vendor ++ natLE 2 d.device ++ natLE 2 d.subvendor
      ++ natLE 2 d.subdevice ++ natLE 2 d.unk1 ++ natLE 2 d.unk2)
  else none

/-- `PCIDeviceList.DEVICESIZE` -/
def PCIDeviceList.DEVICESIZE : Nat := 12

/-- `PCIDeviceList.parse`: the loop `while devicepos < len(firmware)` that
unpacks `'<6H'` from `firmware[devicepos:devicepos+12]` and appends every
entry (the all-zero sentinel included).  `struct.unpack` fails when fewer
than 12 bytes remain in a nonempty region.  Returns the device list and the
final `devicepos` (the consumed byte count). -/
def PCIDeviceList.parse : List Nat → Option (List PCIDevice × Nat)
  | [] => some ([], 0)
  | b0 :: b1 :: b2 :: b3 :: b4 :: b5 :: b6 :: b7 :: b8 :: b9 :: b10 :: b11 :: rest =>
    match PCIDeviceList.parse rest with
    | none => none
    | some (devices, devicepos) =>
      some
        ( { vendor := leNat [b0, b1], device := leNat [b2, b3]
            subvendor := leNat [b4, b5], subdevice := leNat [b6, b7]
            unk1 := leNat [b8, b9], unk2 := leNat [b10, b11] } :: devices
        , PCIDeviceList.DEVICESIZE + devicepos )
  | _ => none

/-- `PCIDeviceList.writeToFLB`: each device's 12-byte encoding, in list
order. -/
def PCIDeviceList.writeToFLB : List PCIDevice → Option (List Nat)
  | [] => some []
  | d :: ds =>
    match d.writeToFLB with
    | none => none
    | some b =>
      match PCIDeviceList.writeToFLB ds with
      | none => none
      | some rest => some (b ++ rest)

/-- One FLB chunk (`class FLBChunk`): header, classification block, device
list and the raw firmware payload (`FirmwareData.firmware`). -/
structure FLBChunk where
  chunknum : Nat
  header : FLBHeader
  pcidetails : PCIDetails
  pcidevices : List PCIDevice
  firmware : List Nat
deriving DecidableEq, Repr

/-- `FLBChunk.parse`: header (98 bytes), classification (41 bytes), then the
device list from the slice `inputdata[139 : 139 + (header_length - 98 - 41)]`
— Python's slice clamping makes this region empty whenever
`header_length ≤ 139` and truncates it at the end of the buffer — and finally
`data_length` payload bytes (again a clamping slice).  Returns the chunk and
the cursor advance `pos`, which counts the declared `data_length` even when
fewer payload bytes were present. -/
def FLBChunk.parse (chunknum : Nat) (inputdata : List Nat) : Option (FLBChunk × Nat) :=
  match FLBHeader.parse (inputdata.take FLBHeader.HEADERSIZE) with
  | none => none
  | some header =>
    match PCIDetails.parse ((inputdata.drop FLBHeader.HEADERSIZE).take PCIDetails.HEADERSIZE) with
    | none => none
    | some (pcidetails, detailsConsumed) =>
      let pciDevicelistSize := header.header_length - FLBHeader.HEADERSIZE - PCIDetails.HEADERSIZE
      match PCIDeviceList.parse
          ((inputdata.drop (FLBHeader.HEADERSIZE + detailsConsumed)).take pciDevicelistSize) with
      | none => none
      | some (pcidevices, listConsumed) =>
        let pos := FLBHeader.HEADERSIZE + detailsConsumed + listConsumed
        some
          ( { chunknum := chunknum
              header := header
              pcidetails := pcidetails
              pcidevices := pcidevices
              firmware := (inputdata.drop pos).take header.data_length }
          , pos + header.data_length )

/-- `FLBChunk.recalculateHeaders`: sets `data_length = len(firmware)` and
`header_length = HEADERSIZE + HEADERSIZE + len(devices) * DEVICESIZE`. -/
def FLBChunk.recalculateHeaders (c : FLBChunk) : FLBChunk :=
  { c with header :=
      { c.header with
          data_length := c.firmware.length
          header_length :=
            FLBHeader.HEADERSIZE + PCIDetails.HEADERSIZE
              + c.pcidevices.length * PCIDeviceList.DEVICESIZE } }

/-- `FLBChunk.writeToFLB`: header, classification, device list, payload, in
that order. -/
def FLBChunk.writeToFLB (c : FLBChunk) : Option (List Nat) :=
  match c.header.writeToFLB with
  | none => none
  | some hb =>
    match c.pcidetails.writeToFLB with
    | none => none
    | some pb =>
      match PCIDeviceList.writeToFLB c.pcidevices with
      | none => none
      | some db => some (hb ++ pb ++ db ++ c.firmware)

theorem PCIDetails.details_parse_consumed {fw : List Nat} {p : PCIDetails} {n : Nat}
    (h : PCIDetails.parse fw = some (p, n)) : n = 41 := by
  unfold PCIDetails.parse at h
  split at h
  · exact absurd h (by simp)
  · simp only [Option.some.injEq, Prod.mk.injEq] at h
    exact h.2.symm

theorem FLBChunk.chunk_parse_consumed {k : Nat} {inputdata : List Nat} {c : FLBChunk} {n : Nat}
    (h : FLBChunk.parse k inputdata = some (c, n)) : 139 ≤ n := by
  unfold FLBChunk.parse at h
  split at h
  · exact absurd h (by simp)
  · split at h
    · exact absurd h (by simp)
    · rename_i pdet dc hpd
      dsimp only at h
      split at h
      · exact absurd h (by simp)
      · simp only [Option.some.injEq, Prod.mk.injEq] at h
        have hdc := PCIDetails.details_parse_consumed hpd
        have := h.2
        simp [FLBHeader.HEADERSIZE] at this
        omega

/-- The chunk loop of `extract_firmware`: starting with chunk number `k`,
repeatedly `FLBChunk.parse` the remaining bytes and advance the cursor by the
returned consumed count, until the cursor is no longer below the end of the
buffer (`while pos < len(inputdata)`). -/
def parseChunksFrom (k : Nat) (inputdata : List Nat) : Option (List FLBChunk) :=
  if inputdata.length = 0 then some []
  else
    match h : FLBChunk.parse k inputdata with
    | none => none
    | some (c, n) =>
      match parseChunksFrom (k + 1) (inputdata.drop n) with
      | none => none
      | some cs => some (c :: cs)
termination_by inputdata.length
decreasing_by
  simp only [List.length_drop]
  have := FLBChunk.chunk_parse_consumed h
  omega

/-- The parsing phase of `extract_firmware`: parse the whole buffer into
chunks numbered from 0. -/
def extract_firmware (inputdata : List Nat) : Option (List FLBChunk) :=
  parseChunksFrom 0 inputdata

/-- The output loop of `write_firmware`: serialize every chunk in list order
and concatenate. -/
def writeChunks : List FLBChunk → Option (List Nat)
  | [] => some []
  | c :: cs =>
    match c.writeToFLB with
    | none => none
    | some b =>
      match writeChunks cs with
      | none => none
      | some rest => some (b ++ rest)

/-- A chunk whose length fields are fresh (as `recalculateHeaders` leaves
them) and whose description contains no null bytes. -/
def FLBChunk.wellFormed (c : FLBChunk) : Prop :=
  c.header.header_length = 98 + 41 + 12 * c.pcidevices.length
  ∧ c.header.data_length = c.firmware.length
  ∧ ∀ b ∈ c.header.description, b ≠ 0

theorem drop_decomp {l p t : List Nat} {m w : Nat}
    (hd : l.drop m = p ++ t) (hp : p.length = w) : l.drop (m + w) = t := by
  have h1 : l.drop (m + w) = (l.drop m).drop w := by
    rw [List.drop_drop, Nat.add_comm]
  rw [h1, hd, List.drop_left' hp]

theorem packStr_of_length_eq {w : Nat} {s : List Nat} (h : s.length = w) :
    packStr w s = s := by
  simp [packStr, h, List.take_of_length_le (Nat.le_of_eq h)]

theorem packStr_take (w : Nat) (s : List Nat) : packStr w (s.take w) = packStr w s := by
  unfold packStr
  rw [List.take_take, Nat.min_self, List.length_take]
  congr 1
  congr 1
  omega

theorem stripNulls_packStr {w : Nat} {s : List Nat} (h : ∀ b ∈ s, b ≠ 0) :
    stripNulls (packStr w s) = s.take w := by
  unfold stripNulls packStr
  rw [List.filter_append]
  have h1 : (s.take w).filter (fun b => b ≠ 0) = s.take w := by
    apply List.filter_eq_self.mpr
    intro a ha
    simpa using h a (List.mem_of_mem_take ha)
  have h2 : (List.replicate (w - s.length) 0).filter (fun b => (b ≠ 0 : Bool)) = [] := by
    simp
  rw [h1, h2, List.append_nil]

theorem asciiOk_packStr {w : Nat} {s : List Nat} (h : asciiOk s = true) :
    asciiOk (packStr w s) = true := by
  simp only [asciiOk, List.all_eq_true, decide_eq_true_eq] at h ⊢
  intro b hb
  simp only [packStr, List.mem_append] at hb
  rcases hb with hb | hb
  · exact h b (List.mem_of_mem_take hb)
  · have := List.eq_of_mem_replicate hb
    omega

theorem asciiOk_stripNulls {s : List Nat} (h : asciiOk s = true) :
    asciiOk (stripNulls s) = true := by
  simp only [asciiOk, List.all_eq_true, decide_eq_true_eq] at h ⊢
  intro b hb
  exact h b (List.mem_of_mem_filter hb)

theorem stripNulls_noNulls (s : List Nat) : ∀ b ∈ stripNulls s, b ≠ 0 := by
  intro b hb
  simpa using List.of_mem_filter hb

/-- What a header looks like after one serialize/parse cycle: the magic is
truncated/zero-padded to 4 bytes and the description is truncated to 80 bytes
(nulls stripped).  Proof-side helper, not part of the source. -/
def FLBHeader.normalize (h : FLBHeader) : FLBHeader :=
  { h with magic := packStr 4 h.magic
           description := stripNulls (packStr 80 h.description) }

theorem FLBHeader.header_write_eq {h : FLBHeader} {bs : List Nat}
    (hw : h.writeToFLB = some bs) :
    asciiOk h.magic = true ∧ asciiOk h.description = true
    ∧ h.header_length < 2 ^ 32 ∧ h.unknown1 < 2 ^ 8 ∧ h.data_length < 2 ^ 32
    ∧ h.delimiter < 2 ^ 16 ∧ h.version1 < 2 ^ 8 ∧ h.version2 < 2 ^ 8 ∧ h.version3 < 2 ^ 8
    ∧ bs = packStr 4 h.magic ++ natLE 4 h.header_length ++ natLE 1 h.unknown1
        ++ natLE 4 h.data_length ++ natLE 2 h.delimiter ++ packStr 80 h.description
        ++ natLE 1 h.version1 ++ natLE 1 h.version2 ++ natLE 1 h.version3 := by
  unfold FLBHeader.writeToFLB at hw
  split at hw
  · rename_i hg
    simp only [Bool.and_eq_true, decide_eq_true_eq] at hg
    simp only [Option.some.injEq] at hw
    obtain ⟨⟨⟨⟨⟨⟨⟨⟨h1, h2⟩, h3⟩, h4⟩, h5⟩, h6⟩, h7⟩, h8⟩, h9⟩ := hg
    exact ⟨h1, h2, h3, h4, h5, h6, h7, h8, h9, hw.symm⟩
  · exact absurd hw (by simp)

theorem FLBHeader.header_write_length {h : FLBHeader} {bs : List Nat}
    (hw : h.writeToFLB = some bs) : bs.length = 98 := by
  obtain ⟨-, -, -, -, -, -, -, -, -, hbs⟩ := FLBHeader.header_write_eq hw
  subst hbs
  simp [packStr_length, natLE_length]

theorem FLBHeader.header_parse_of_write {h : FLBHeader} {bs : List Nat}
    (hw : h.writeToFLB = some bs) :
    FLBHeader.parse bs = some h.normalize := by
  obtain ⟨hm, hd, hhl, hu1, hdl, hdel, hv1, hv2, hv3, hbs⟩ := FLBHeader.header_write_eq hw
  have hlen : bs.length = 98 := FLBHeader.header_write_length hw
  have d4 : bs.drop 4 = natLE 4 h.header_length ++ (natLE 1 h.unknown1
      ++ (natLE 4 h.data_length ++ (natLE 2 h.delimiter ++ (packStr 80 h.description
      ++ (natLE 1 h.version1 ++ (natLE 1 h.version2 ++ natLE 1 h.version3)))))) := by
    rw [hbs]
    simp only [List.append_assoc]
    exact List.drop_left' (packStr_length 4 h.magic)
  have d8 : bs.drop 8 = natLE 1 h.unknown1 ++ (natLE 4 h.data_length
      ++ (natLE 2 h.delimiter ++ (packStr 80 h.description
      ++ (natLE 1 h.version1 ++ (natLE 1 h.version2 ++ natLE 1 h.version3))))) :=
    drop_decomp d4 (natLE_length 4 h.header_length)
  have d9 : bs.drop 9 = natLE 4 h.data_length ++ (natLE 2 h.delimiter
      ++ (packStr 80 h.description
      ++ (natLE 1 h.version1 ++ (natLE 1 h.version2 ++ natLE 1 h.version3)))) :=
    drop_decomp d8 (natLE_length 1 h.unknown1)
  have d13 : bs.drop 13 = natLE 2 h.delimiter ++ (packStr 80 h.description
      ++ (natLE 1 h.version1 ++ (natLE 1 h.version2 ++ natLE 1 h.version3))) :=
    drop_decomp d9 (natLE_length 4 h.data_length)
  have d15 : bs.drop 15 = packStr 80 h.description
      ++ (natLE 1 h.version1 ++ (natLE 1 h.version2 ++ natLE 1 h.version3)) :=
    drop_decomp d13 (natLE_length 2 h.delimiter)
  have d95 : bs.drop 95 = natLE 1 h.version1 ++ (natLE 1 h.version2 ++ natLE 1 h.version3) :=
    drop_decomp d15 (packStr_length 80 h.description)
  have d96 : bs.drop 96 = natLE 1 h.version2 ++ natLE 1 h.version3 :=
    drop_decomp d95 (natLE_length 1 h.version1)
  have d97 : bs.drop 97 = natLE 1 h.version3 ++ [] := by
    rw [List.append_nil]
    exact drop_decomp d96 (natLE_length 1 h.version2)
  unfold FLBHeader.parse
  rw [if_neg (by simp [FLBHeader.HEADERSIZE, hlen])]
  simp only [Option.some.injEq, FLBHeader.mk.injEq, FLBHeader.normalize]
  refine ⟨?_, ?_, ?_, ?_, ?_, ?_, ?_, ?_, ?_⟩
  · rw [hbs]
    simp only [List.append_assoc]
    exact List.take_left' (packStr_length 4 h.magic)
  · rw [d4, List.take_left' (natLE_length 4 h.header_length)]
    exact leNat_natLE 4 h.header_length (by norm_num at hhl ⊢; omega)
  · rw [d8, List.take_left' (natLE_length 1 h.unknown1)]
    exact leNat_natLE 1 h.unknown1 (by norm_num at hu1 ⊢; omega)
  · rw [d9, List.take_left' (natLE_length 4 h.data_length)]
    exact leNat_natLE 4 h.data_length (by norm_num at hdl ⊢; omega)
  · rw [d13, List.take_left' (natLE_length 2 h.delimiter)]
    exact leNat_natLE 2 h.delimiter (by norm_num at hdel ⊢; omega)
  · rw [d15, List.take_left' (packStr_length 80 h.description)]
  · rw [d95, List.take_left' (natLE_length 1 h.version1)]
    exact leNat_natLE 1 h.version1 (by norm_num at hv1 ⊢; omega)
  · rw [d96, List.take_left' (natLE_length 1 h.version2)]
    exact leNat_natLE 1 h.version2 (by norm_num at hv2 ⊢; omega)
  · rw [d97, List.take_left' (natLE_length 1 h.version3)]
    exact leNat_natLE 1 h.version3 (by norm_num at hv3 ⊢; omega)

theorem FLBHeader.header_write_normalize {h : FLBHeader} {bs : List Nat}
    (hw : h.writeToFLB = some bs) (hnn : ∀ b ∈ h.description, b ≠ 0) :
    h.normalize.writeToFLB = some bs := by
  obtain ⟨hm, hd, hhl, hu1, hdl, hdel, hv1, hv2, hv3, hbs⟩ := FLBHeader.header_write_eq hw
  unfold FLBHeader.writeToFLB FLBHeader.normalize
  rw [if_pos]
  · rw [hbs]
    simp only [Option.some.injEq]
    rw [packStr_of_length_eq (packStr_length 4 h.magic),
      stripNulls_packStr hnn, packStr_take]
  · simp only [Bool.and_eq_true, decide_eq_true_eq]
    refine ⟨⟨⟨⟨⟨⟨⟨⟨?_, ?_⟩, hhl⟩, hu1⟩, hdl⟩, hdel⟩, hv1⟩, hv2⟩, hv3⟩
    · exact asciiOk_packStr hm
    · exact asciiOk_stripNulls (asciiOk_packStr hd)

/-- What a classification record looks like after one serialize/parse cycle:
the opaque span is truncated/zero-padded to 37 bytes.  Proof-side helper. -/
def PCIDetails.normalize (p : PCIDetails) : PCIDetails :=
  { p with unknown := packStr 37 p.unknown }

theorem PCIDetails.details_write_eq {p : PCIDetails} {bs : List Nat}
    (hw : p.writeToFLB = some bs) :
    p.flb_type < 2 ^ 32 ∧ asciiOk p.unknown = true
    ∧ bs = natLE 4 p.flb_type ++ packStr 37 p.unknown := by
  unfold PCIDetails.writeToFLB at hw
  split at hw
  · rename_i hg
    simp only [Bool.and_eq_true, decide_eq_true_eq] at hg
    simp only [Option.some.injEq] at hw
    exact ⟨hg.1, hg.2, hw.symm⟩
  · exact absurd hw (by simp)

theorem PCIDetails.details_write_length {p : PCIDetails} {bs : List Nat}
    (hw : p.writeToFLB = some bs) : bs.length = 41 := by
  obtain ⟨-, -, hbs⟩ := PCIDetails.details_write_eq hw
  subst hbs
  simp [packStr_length, natLE_length]

theorem PCIDetails.details_parse_of_write {p : PCIDetails} {bs : List Nat}
    (hw : p.writeToFLB = some bs) :
    PCIDetails.parse bs = some (p.normalize, 41) := by
  obtain ⟨hft, hu, hbs⟩ := PCIDetails.details_write_eq hw
  have hlen : bs.length = 41 := PCIDetails.details_write_length hw
  unfold PCIDetails.parse
  rw [if_neg (by simp [PCIDetails.HEADERSIZE, hlen])]
  simp only [Option.some.injEq, Prod.mk.injEq, PCIDetails.mk.injEq, PCIDetails.normalize]
  refine ⟨⟨?_, ?_⟩, rfl⟩
  · rw [hbs, List.take_left' (natLE_length 4 p.flb_type)]
    exact leNat_natLE 4 p.flb_type (by norm_num at hft ⊢; omega)
  · rw [hbs, List.drop_left' (natLE_length 4 p.flb_type),
      List.take_of_length_le (Nat.le_of_eq (packStr_length 37 p.unknown))]

theorem PCIDetails.details_write_normalize {p : PCIDetails} {bs : List Nat}
    (hw : p.writeToFLB = some bs) : p.normalize.writeToFLB = some bs := by
  obtain ⟨hft, hu, hbs⟩ := PCIDetails.details_write_eq hw
  unfold PCIDetails.writeToFLB PCIDetails.normalize
  rw [if_pos]
  · rw [hbs]
    simp only [Option.some.injEq]
    rw [packStr_of_length_eq (packStr_length 37 p.unknown)]
  · simp only [Bool.and_eq_true, decide_eq_true_eq]
    exact ⟨hft, asciiOk_packStr hu⟩

theorem leNat_pair {x : Nat} (h : x < 2 ^ 16) :
    leNat [x % 256, x / 256 % 256] = x := by
  simp only [leNat]
  omega

theorem PCIDevice.device_write_eq {d : PCIDevice} {bs : List Nat}
    (hw : d.writeToFLB = some bs) :
    d.vendor < 2 ^ 16 ∧ d.device < 2 ^ 16 ∧ d.subvendor < 2 ^ 16 ∧ d.subdevice < 2 ^ 16
    ∧ d.unk1 < 2 ^ 16 ∧ d.unk2 < 2 ^ 16
    ∧ bs = natLE 2 d.vendor ++ natLE 2 d.device ++ natLE 2 d.subvendor
        ++ natLE 2 d.subdevice ++ natLE 2 d.unk1 ++ natLE 2 d.unk2 := by
  unfold PCIDevice.writeToFLB at hw
  split at hw
  · rename_i hg
    simp only [Bool.and_eq_true, decide_eq_true_eq] at hg
    simp only [Option.some.injEq] at hw
    obtain ⟨⟨⟨⟨⟨h1, h2⟩, h3⟩, h4⟩, h5⟩, h6⟩ := hg
    exact ⟨h1, h2, h3, h4, h5, h6, hw.symm⟩
  · exact absurd hw (by simp)

theorem PCIDeviceList.writeToFLB_roundtrip {ds : List PCIDevice} {db : List Nat}
    (hw : PCIDeviceList.writeToFLB ds = some db) :
    db.length = 12 * ds.length ∧ PCIDeviceList.parse db = some (ds, db.length) := by
  induction ds generalizing db with
  | nil =>
    simp only [PCIDeviceList.writeToFLB, Option.some.injEq] at hw
    subst hw
    exact ⟨rfl, rfl⟩
  | cons d ds ih =>
    unfold PCIDeviceList.writeToFLB at hw
    split at hw
    · exact absurd hw (by simp)
    · rename_i b hb
      split at hw
      · exact absurd hw (by simp)
      · rename_i rest hrest
        simp only [Option.some.injEq] at hw
        obtain ⟨hlenr, hparser⟩ := ih hrest
        obtain ⟨h1, h2, h3, h4, h5, h6, hbs⟩ := PCIDevice.device_write_eq hb
        obtain ⟨v, dev, sv, sd, u1, u2⟩ := d
        simp only at h1 h2 h3 h4 h5 h6
        have hb2 : ∀ x : Nat, natLE 2 x = [x % 256, x / 256 % 256] := fun x => rfl
        rw [hb2, hb2, hb2, hb2, hb2, hb2] at hbs
        subst hbs hw
        constructor
        · simp only [List.length_append, List.length_cons, List.length_nil]
          omega
        · simp only [List.cons_append, List.nil_append, List.append_assoc]
          simp only [PCIDeviceList.parse, hparser]
          rw [leNat_pair h1, leNat_pair h2, leNat_pair h3, leNat_pair h4,
            leNat_pair h5, leNat_pair h6]
          simp only [Option.some.injEq, Prod.mk.injEq, PCIDeviceList.DEVICESIZE]
          constructor
          · trivial
          · simp only [List.length_append, List.length_cons, List.length_nil]
            omega

/-- What a chunk looks like after one serialize/parse cycle starting at chunk
number `k`.  Proof-side helper. -/
def FLBChunk.normalize (k : Nat) (c : FLBChunk) : FLBChunk :=
  { c with chunknum := k
           header := c.header.normalize
           pcidetails := c.pcidetails.normalize }

theorem FLBHeader.normalize_header_length (h : FLBHeader) :
    h.normalize.header_length = h.header_length := rfl

theorem FLBHeader.normalize_data_length (h : FLBHeader) :
    h.normalize.data_length = h.data_length := rfl

theorem FLBChunk.chunk_write_eq {c : FLBChunk} {b : List Nat}
    (hw : c.writeToFLB = some b) :
    ∃ hb pb db, c.header.writeToFLB = some hb ∧ c.pcidetails.writeToFLB = some pb
      ∧ PCIDeviceList.writeToFLB c.pcidevices = some db
      ∧ b = hb ++ pb ++ db ++ c.firmware := by
  unfold FLBChunk.writeToFLB at hw
  split at hw
  · exact absurd hw (by simp)
  · rename_i hb hhb
    split at hw
    · exact absurd hw (by simp)
    · rename_i pb hpb
      split at hw
      · exact absurd hw (by simp)
      · rename_i db hdb
        simp only [Option.some.injEq] at hw
        exact ⟨hb, pb, db, hhb, hpb, hdb, hw.symm⟩

theorem FLBChunk.chunk_parse_of_write (k : Nat) {c : FLBChunk} {b : List Nat} (rest : List Nat)
    (hwf : c.wellFormed) (hw : c.writeToFLB = some b) :
    FLBChunk.parse k (b ++ rest) = some (FLBChunk.normalize k c, b.length) := by
  obtain ⟨hb, pb, db, hhb, hpb, hdb, hbeq⟩ := FLBChunk.chunk_write_eq hw
  have hhblen : hb.length = 98 := FLBHeader.header_write_length hhb
  have hpblen : pb.length = 41 := PCIDetails.details_write_length hpb
  obtain ⟨hdblen, hdparse⟩ := PCIDeviceList.writeToFLB_roundtrip hdb
  have hbig : b ++ rest = hb ++ (pb ++ (db ++ (c.firmware ++ rest))) := by
    rw [hbeq]
    simp [List.append_assoc]
  have f1 : (hb ++ (pb ++ (db ++ (c.firmware ++ rest)))).take 98 = hb :=
    List.take_left' hhblen
  have f3 : (hb ++ (pb ++ (db ++ (c.firmware ++ rest)))).drop 98
      = pb ++ (db ++ (c.firmware ++ rest)) := List.drop_left' hhblen
  have f4 : (pb ++ (db ++ (c.firmware ++ rest))).take 41 = pb :=
    List.take_left' hpblen
  have f6 : (hb ++ (pb ++ (db ++ (c.firmware ++ rest)))).drop 139
      = db ++ (c.firmware ++ rest) := by
    have := drop_decomp f3 hpblen
    exact this
  have f7 : c.header.normalize.header_length - 98 - 41 = db.length := by
    rw [FLBHeader.normalize_header_length, hwf.1]
    omega
  have f8 : (db ++ (c.firmware ++ rest)).take db.length = db := List.take_left db _
  have f10 : (hb ++ (pb ++ (db ++ (c.firmware ++ rest)))).drop (139 + db.length)
      = c.firmware ++ rest := drop_decomp f6 rfl
  have f11 : c.header.normalize.data_length = c.firmware.length := by
    rw [FLBHeader.normalize_data_length, hwf.2.1]
  have f12 : (c.firmware ++ rest).take c.firmware.length = c.firmware :=
    List.take_left c.firmware rest
  have hblen : b.length = 139 + db.length + c.firmware.length := by
    rw [hbeq]
    simp only [List.length_append]
    omega
  rw [hbig]
  unfold FLBChunk.parse
  simp only [FLBHeader.HEADERSIZE, PCIDetails.HEADERSIZE,
    show (98 : Nat) + 41 = 139 from rfl, f1,
    FLBHeader.header_parse_of_write hhb, f3, f4, PCIDetails.details_parse_of_write hpb,
    f6, f7, f8, hdparse, f10, f11, f12]
  simp only [Option.some.injEq, Prod.mk.injEq, FLBChunk.normalize]
  constructor
  · trivial
  · omega

theorem FLBChunk.wellFormed_normalize {k : Nat} {c : FLBChunk} (hwf : c.wellFormed) :
    (FLBChunk.normalize k c).wellFormed := by
  obtain ⟨h1, h2, h3⟩ := hwf
  refine ⟨h1, h2, ?_⟩
  intro b hbmem
  exact stripNulls_noNulls _ b hbmem

theorem FLBChunk.chunk_write_normalize {k : Nat} {c : FLBChunk} {b : List Nat}
    (hw : c.writeToFLB = some b) (hnn : ∀ x ∈ c.header.description, x ≠ 0) :
    (FLBChunk.normalize k c).writeToFLB = some b := by
  obtain ⟨hb, pb, db, hhb, hpb, hdb, hbeq⟩ := FLBChunk.chunk_write_eq hw
  unfold FLBChunk.writeToFLB FLBChunk.normalize
  simp only [FLBHeader.header_write_normalize hhb hnn, PCIDetails.details_write_normalize hpb, hdb]
  rw [hbeq]

theorem parseChunksFrom_nil (k : Nat) : parseChunksFrom k [] = some [] := by
  unfold parseChunksFrom
  simp

theorem parseChunksFrom_cons {k : Nat} {data : List Nat} {c : FLBChunk} {n : Nat}
    {cs : List FLBChunk}
    (h0 : data ≠ []) (hp : FLBChunk.parse k data = some (c, n))
    (hrec : parseChunksFrom (k + 1) (data.drop n) = some cs) :
    parseChunksFrom k data = some (c :: cs) := by
  unfold parseChunksFrom
  rw [if_neg (by simpa using h0)]
  split
  · rename_i hnone
    simp [hp] at hnone
  · rename_i c' n' heq
    rw [hp] at heq
    simp only [Option.some.injEq, Prod.mk.injEq] at heq
    obtain ⟨hc, hn⟩ := heq
    subst hc hn
    rw [hrec]

theorem writeChunks_roundtrip_from (cs : List FLBChunk) (k : Nat) (bs : List Nat)
    (hwf : ∀ c ∈ cs, c.wellFormed) (hw : writeChunks cs = some bs) :
    ∃ cs', parseChunksFrom k bs = some cs'
      ∧ writeChunks cs' = some bs ∧ ∀ c ∈ cs', c.wellFormed := by
  induction cs generalizing k bs with
  | nil =>
    simp only [writeChunks, Option.some.injEq] at hw
    subst hw
    exact ⟨[], parseChunksFrom_nil k, rfl, by simp⟩
  | cons c cs ih =>
    unfold writeChunks at hw
    split at hw
    · exact absurd hw (by simp)
    · rename_i b hb
      split at hw
      · exact absurd hw (by simp)
      · rename_i brest hbrest
        simp only [Option.some.injEq] at hw
        subst hw
        have hcwf : c.wellFormed := hwf c (by simp)
        have hrestwf : ∀ x ∈ cs, x.wellFormed := fun x hx => hwf x (by simp [hx])
        obtain ⟨cs', hparse', hwrite', hwf'⟩ := ih (k + 1) brest hrestwf hbrest
        have hparseb : FLBChunk.parse k (b ++ brest)
            = some (FLBChunk.normalize k c, b.length) :=
          FLBChunk.chunk_parse_of_write k brest hcwf hb
        have h139 : 139 ≤ b.length := FLBChunk.chunk_parse_consumed hparseb
        have hnonnil : b ++ brest ≠ [] := by
          intro hcontra
          have : (b ++ brest).length = 0 := by rw [hcontra]; rfl
          simp only [List.length_append] at this
          omega
        have hdrop : (b ++ brest).drop b.length = brest := List.drop_left b brest
        have happ : parseChunksFrom k (b ++ brest)
            = some (FLBChunk.normalize k c :: cs') :=
          parseChunksFrom_cons hnonnil hparseb (by rw [hdrop]; exact hparse')
        refine ⟨FLBChunk.normalize k c :: cs', happ, ?_, ?_⟩
        · unfold writeChunks
          rw [FLBChunk.chunk_write_normalize hb hcwf.2.2]
          rw [hwrite']
        · intro x hx
          rcases List.mem_cons.mp hx with hx | hx
          · subst hx
            exact FLBChunk.wellFormed_normalize hcwf
          · exact hwf' x hx

/-- Claim C1: for every byte buffer produced by a correct serialize — i.e.
the concatenated `writeToFLB` output of chunks whose `header_length` and
`data_length` fields are fresh (not stale) and whose in-memory description is
null-free, as any parsed or recalculated chunk is — parsing the buffer with
the `extract_firmware` chunk loop succeeds, and serializing the resulting
chunks back, in order, reproduces a byte-identical buffer. -/
theorem C1_container_roundtrip (cs : List FLBChunk) (bs : List Nat)
    (hwf : ∀ c ∈ cs, c.wellFormed) (hw : writeChunks cs = some bs) :
    ∃ cs', extract_firmware bs = some cs' ∧ writeChunks cs' = some bs := by
  obtain ⟨cs', h1, h2, -⟩ := writeChunks_roundtrip_from cs 0 bs hwf hw
  exact ⟨cs', h1, h2⟩

/-- A concrete well-formed chunk used to instantiate the C1 hypotheses:
magic "FLB3", one (sentinel) device entry, a 4-byte payload, and fresh
length fields (151 = 98 + 41 + 12, data length 4). -/
def c1SampleChunk : FLBChunk :=
  { chunknum := 0
    header :=
      { magic := [70, 76, 66, 51]
        header_length := 151
        unknown1 := 0
        data_length := 4
        delimiter := 34432
        description := [84, 101, 115, 116]
        version1 := 1, version2 := 2, version3 := 3 }
    pcidetails := { flb_type := 768, unknown := List.replicate 37 0 }
    pcidevices := [{ vendor := 0, device := 0, subvendor := 0, subdevice := 0
                     unk1 := 0, unk2 := 0 }]
    firmware := [1, 2, 3, 4] }

theorem C1_container_roundtrip_witness :
    ∃ cs', extract_firmware ((writeChunks [c1SampleChunk]).getD []) = some cs'
      ∧ writeChunks cs' = some ((writeChunks [c1SampleChunk]).getD []) :=
  C1_container_roundtrip [c1SampleChunk] ((writeChunks [c1SampleChunk]).getD [])
    (by
      intro c hc
      simp only [List.mem_singleton] at hc
      subst hc
      exact ⟨rfl, rfl, by decide⟩)
    (by rfl)

/-- Claim C2: after `recalculateHeaders`, `header_length` is exactly
98 + 41 + 12·(number of device-list entries) and `data_length` is the
payload length in bytes, for every chunk and regardless of the prior values
of those fields. -/
theorem C2_recalculated_lengths (c : FLBChunk) :
    (c.recalculateHeaders).header.header_length = 98 + 41 + 12 * c.pcidevices.length
    ∧ (c.recalculateHeaders).header.data_length = c.firmware.length := by
  constructor
  · simp [FLBChunk.recalculateHeaders, FLBHeader.HEADERSIZE, PCIDetails.HEADERSIZE,
      PCIDeviceList.DEVICESIZE, Nat.mul_comm]
  · rfl

/-- Claim C10: `recalculateHeaders` modifies only the header's
`header_length` and `data_length`: the remaining header fields (magic,
unknown1, delimiter, description, version), the classification record, the
device list, the payload, and the chunk number are all unchanged. -/
theorem C10_recalculateHeaders_frame (c : FLBChunk) :
    (c.recalculateHeaders).header.magic = c.header.magic
    ∧ (c.recalculateHeaders).header.unknown1 = c.header.unknown1
    ∧ (c.recalculateHeaders).header.delimiter = c.header.delimiter
    ∧ (c.recalculateHeaders).header.description = c.header.description
    ∧ (c.recalculateHeaders).header.version1 = c.header.version1
    ∧ (c.recalculateHeaders).header.version2 = c.header.version2
    ∧ (c.recalculateHeaders).header.version3 = c.header.version3
    ∧ (c.recalculateHeaders).pcidetails = c.pcidetails
    ∧ (c.recalculateHeaders).pcidevices = c.pcidevices
    ∧ (c.recalculateHeaders).firmware = c.firmware
    ∧ (c.recalculateHeaders).chunknum = c.chunknum :=
  ⟨rfl, rfl, rfl, rfl, rfl, rfl, rfl, rfl, rfl, rfl, rfl⟩

theorem PCIDeviceList.parse_length_aux : ∀ (n : Nat) (fw : List Nat), fw.length ≤ n →
    (fw.length % 12 = 0 →
      ∃ ds, PCIDeviceList.parse fw = some (ds, fw.length) ∧ ds.length = fw.length / 12)
    ∧ (fw.length % 12 ≠ 0 → PCIDeviceList.parse fw = none) := by
  intro n
  induction n with
  | zero =>
    intro fw hfw
    have hnil : fw = [] := List.eq_nil_of_length_eq_zero (by omega)
    subst hnil
    exact ⟨fun _ => ⟨[], rfl, rfl⟩, fun hmod => absurd rfl hmod⟩
  | succ n ih =>
    intro fw hfw
    rcases fw with _ | ⟨b0, fw⟩
    · exact ⟨fun _ => ⟨[], rfl, rfl⟩, fun hmod => absurd rfl hmod⟩
    rcases fw with _ | ⟨b1, fw⟩
    · exact ⟨fun hmod => by simp at hmod, fun _ => rfl⟩
    rcases fw with _ | ⟨b2, fw⟩
    · exact ⟨fun hmod => by simp at hmod, fun _ => rfl⟩
    rcases fw with _ | ⟨b3, fw⟩
    · exact ⟨fun hmod => by simp at hmod, fun _ => rfl⟩
    rcases fw with _ | ⟨b4, fw⟩
    · exact ⟨fun hmod => by simp at hmod, fun _ => rfl⟩
    rcases fw with _ | ⟨b5, fw⟩
    · exact ⟨fun hmod => by simp at hmod, fun _ => rfl⟩
    rcases fw with _ | ⟨b6, fw⟩
    · exact ⟨fun hmod => by simp at hmod, fun _ => rfl⟩
    rcases fw with _ | ⟨b7, fw⟩
    · exact ⟨fun hmod => by simp at hmod, fun _ => rfl⟩
    rcases fw with _ | ⟨b8, fw⟩
    · exact ⟨fun hmod => by simp at hmod, fun _ => rfl⟩
    rcases fw with _ | ⟨b9, fw⟩
    · exact ⟨fun hmod => by simp at hmod, fun _ => rfl⟩
    rcases fw with _ | ⟨b10, fw⟩
    · exact ⟨fun hmod => by simp at hmod, fun _ => rfl⟩
    rcases fw with _ | ⟨b11, rest⟩
    · exact ⟨fun hmod => by simp at hmod, fun _ => rfl⟩
    have hrest : rest.length ≤ n := by
      simp only [List.length_cons] at hfw
      omega
    obtain ⟨hok, hbad⟩ := ih rest hrest
    constructor
    · intro hmod
      simp only [List.length_cons] at hmod
      have hmod' : rest.length % 12 = 0 := by omega
      obtain ⟨ds, hp, hlen⟩ := hok hmod'
      refine ⟨{ vendor := leNat [b0, b1], device := leNat [b2, b3]
                subvendor := leNat [b4, b5], subdevice := leNat [b6, b7]
                unk1 := leNat [b8, b9], unk2 := leNat [b10, b11] } :: ds, ?_, ?_⟩
      · simp only [PCIDeviceList.parse, hp, PCIDeviceList.DEVICESIZE]
        simp only [List.length_cons, Option.some.injEq, Prod.mk.injEq]
        exact ⟨trivial, by omega⟩
      · simp only [List.length_cons]
        omega
    · intro hmod
      simp only [List.length_cons] at hmod
      have hmod' : rest.length % 12 ≠ 0 := by omega
      simp only [PCIDeviceList.parse, hbad hmod']

/-- Claim C6: on every byte region whose length is a multiple of 12, the
device-list parser succeeds, decodes exactly length/12 entries and consumes
the entire region; it never stops early at an all-zero sentinel entry. -/
theorem C6_devicelist_full_decode (fw : List Nat) (h : fw.length % 12 = 0) :
    ∃ ds, PCIDeviceList.parse fw = some (ds, fw.length) ∧ ds.length = fw.length / 12 :=
  (PCIDeviceList.parse_length_aux fw.length fw le_rfl).1 h

/-- Witness region for C6: an all-zero (sentinel) entry followed by a nonzero
entry; both must be decoded and retained. -/
def c6Region : List Nat :=
  List.replicate 12 0 ++ [134, 128, 99, 21, 0, 0, 0, 0, 0, 0, 0, 0]

theorem C6_devicelist_full_decode_witness :
    c6Region.length % 12 = 0
    ∧ ∃ ds, PCIDeviceList.parse c6Region = some (ds, c6Region.length)
        ∧ ds.length = c6Region.length / 12 :=
  ⟨by decide, C6_devicelist_full_decode c6Region (by decide)⟩

/-- Claim C7: on every byte region whose length is not a multiple of 12, the
device-list parser fails (the misaligned-device-list condition, a
`struct.unpack` error in the source) instead of returning a device list. -/
theorem C7_devicelist_misaligned (fw : List Nat) (h : fw.length % 12 ≠ 0) :
    PCIDeviceList.parse fw = none :=
  (PCIDeviceList.parse_length_aux fw.length fw le_rfl).2 h

theorem C7_devicelist_misaligned_witness :
    [1, 1, 1, 1, 1].length % 12 ≠ 0 ∧ PCIDeviceList.parse [1, 1, 1, 1, 1] = none :=
  ⟨by decide, C7_devicelist_misaligned [1, 1, 1, 1, 1] (by decide)⟩

/-- Claim C8: for every description of at most 80 bytes containing no null
bytes, for which the header serializes at all (in particular the text is
ASCII-representable), parsing the serialized header returns the original
description: encoding zero-pads to exactly 80 bytes, decoding strips all
null bytes. -/
theorem C8_description_roundtrip (h : FLBHeader) (bs : List Nat)
    (hw : h.writeToFLB = some bs)
    (hlen : h.description.length ≤ 80)
    (hnn : ∀ b ∈ h.description, b ≠ 0) :
    ∃ h', FLBHeader.parse bs = some h' ∧ h'.description = h.description := by
  refine ⟨h.normalize, FLBHeader.header_parse_of_write hw, ?_⟩
  show stripNulls (packStr 80 h.description) = h.description
  rw [stripNulls_packStr hnn, List.take_of_length_le hlen]

/-- Concrete header for the C8 witness, with description "hello". -/
def c8Header : FLBHeader :=
  { magic := [70, 76, 66, 51]
    header_length := 139
    unknown1 := 0
    data_length := 0
    delimiter := 34432
    description := [104, 101, 108, 108, 111]
    version1 := 1, version2 := 0, version3 := 0 }

theorem C8_description_roundtrip_witness :
    ∃ h', FLBHeader.parse ((FLBHeader.writeToFLB c8Header).getD []) = some h'
      ∧ h'.description = c8Header.description :=
  C8_description_roundtrip c8Header ((FLBHeader.writeToFLB c8Header).getD [])
    (by rfl) (by decide) (by decide)

/-- Claim C9: every 32-bit `flb_type` value — the known-type table plays no
role in parsing — is accepted by the classification parser and preserved
unchanged through a serialize cycle: parsing the 41-byte encoding recovers
the value and re-serializing reproduces the bytes. -/
theorem C9_flbtype_preserved (v : Nat) (u : List Nat)
    (hv : v < 2 ^ 32) (hu : u.length = 37) (hua : asciiOk u = true) :
    PCIDetails.parse (natLE 4 v ++ u) = some ({ flb_type := v, unknown := u }, 41)
    ∧ PCIDetails.writeToFLB { flb_type := v, unknown := u } = some (natLE 4 v ++ u) := by
  constructor
  · unfold PCIDetails.parse
    rw [if_neg (by simp [natLE_length, hu, PCIDetails.HEADERSIZE])]
    simp only [Option.some.injEq, Prod.mk.injEq, PCIDetails.mk.injEq, PCIDetails.HEADERSIZE]
    refine ⟨⟨?_, ?_⟩, trivial⟩
    · rw [List.take_left' (natLE_length 4 v)]
      exact leNat_natLE 4 v (by norm_num at hv ⊢; omega)
    · rw [List.drop_left' (natLE_length 4 v), List.take_of_length_le (Nat.le_of_eq hu)]
  · unfold PCIDetails.writeToFLB
    rw [if_pos (by simp [hua]; omega)]
    simp only [Option.some.injEq]
    rw [packStr_of_length_eq hu]

theorem FLBChunk.parse_small_header (k : Nat) (data : List Nat) (hdr : FLBHeader)
    (hlen : 139 ≤ data.length)
    (hparse : FLBHeader.parse (data.take 98) = some hdr)
    (hhl : hdr.header_length ≤ 139) :
    FLBChunk.parse k data = some
      ( { chunknum := k
          header := hdr
          pcidetails := { flb_type := leNat ((data.drop 98).take 4)
                          unknown := (data.drop 102).take 37 }
          pcidevices := []
          firmware := (data.drop 139).take hdr.data_length }
      , 139 + hdr.data_length ) := by
  have hdet : PCIDetails.parse ((data.drop 98).take 41)
      = some ({ flb_type := leNat ((data.drop 98).take 4)
                unknown := (data.drop 102).take 37 }, 41) := by
    unfold PCIDetails.parse
    rw [if_neg (by simp [PCIDetails.HEADERSIZE]; omega)]
    simp only [Option.some.injEq, Prod.mk.injEq, PCIDetails.mk.injEq, PCIDetails.HEADERSIZE]
    refine ⟨⟨?_, ?_⟩, trivial⟩
    · rw [List.take_take]
      norm_num
    · rw [List.drop_take, List.take_take, List.drop_drop]
      norm_num
  have hreg : (data.drop 139).take (hdr.header_length - 98 - 41) = [] := by
    have h0 : hdr.header_length - 98 - 41 = 0 := by omega
    rw [h0, List.take_zero]
  unfold FLBChunk.parse
  simp only [FLBHeader.HEADERSIZE, PCIDetails.HEADERSIZE,
    show (98 : Nat) + 41 = 139 from rfl, hparse, hdet, hreg,
    show PCIDeviceList.parse [] = some ([], 0) from rfl, Nat.add_zero]

/-- Concrete 139-byte buffer whose header declares `header_length = 100`
(smaller than 139) and `data_length = 0`. -/
def c3buf : List Nat :=
  [70, 76, 66, 51] ++ natLE 4 100 ++ [7] ++ natLE 4 0 ++ natLE 2 34432
    ++ List.replicate 80 0 ++ [1, 2, 3] ++ natLE 4 999 ++ List.replicate 37 5

/-- Counterexample to claim C3: on a buffer declaring `headerLength = 100`
(< 139), `FLBChunk.parse` does not fail: the Python slice for the device
list clamps to the empty string, so parsing succeeds with an empty device
list, consuming 139 bytes. -/
theorem C3_counterexample :
    Option.map (fun r => (r.1.header.header_length, r.1.pcidevices, r.2))
      (FLBChunk.parse 0 c3buf) = some (100, [], 139) := by rfl

/-- Claim C3 as amended: for every buffer of at least 139 bytes whose header
declares `headerLength < 139`, `FLBChunk.parse` succeeds — there is no
negative-device-list-length failure — and returns a chunk with an empty
device list, consuming `139 + dataLength` bytes: the Python expression
`inputdata[139 : 139 + (headerLength - 139)]` clamps to the empty slice. -/
theorem C3_amended_small_header_succeeds (k : Nat) (data : List Nat) (hdr : FLBHeader)
    (hlen : 139 ≤ data.length)
    (hparse : FLBHeader.parse (data.take 98) = some hdr)
    (hhl : hdr.header_length < 139) :
    ∃ c, FLBChunk.parse k data = some (c, 139 + hdr.data_length)
      ∧ c.pcidevices = [] ∧ c.header = hdr :=
  ⟨_, FLBChunk.parse_small_header k data hdr hlen hparse (Nat.le_of_lt hhl), rfl, rfl⟩

/-- The header that `FLBHeader.parse` decodes from `c3buf`. -/
def c3hdr : FLBHeader :=
  { magic := [70, 76, 66, 51]
    header_length := 100
    unknown1 := 7
    data_length := 0
    delimiter := 34432
    description := []
    version1 := 1, version2 := 2, version3 := 3 }

set_option maxRecDepth 8192 in
theorem C3_amended_small_header_succeeds_witness :
    ∃ c, FLBChunk.parse 0 c3buf = some (c, 139 + c3hdr.data_length)
      ∧ c.pcidevices = [] ∧ c.header = c3hdr :=
  C3_amended_small_header_succeeds 0 c3buf c3hdr (by decide) (by rfl) (by decide)

theorem FLBHeader.writeToFLB_descField {h : FLBHeader} {bs : List Nat}
    (hw : h.writeToFLB = some bs) :
    (bs.drop 15).take 80 = packStr 80 h.description := by
  obtain ⟨hm, hd, hhl, hu1, hdl, hdel, hv1, hv2, hv3, hbs⟩ := FLBHeader.header_write_eq hw
  have d4 : bs.drop 4 = natLE 4 h.header_length ++ (natLE 1 h.unknown1
      ++ (natLE 4 h.data_length ++ (natLE 2 h.delimiter ++ (packStr 80 h.description
      ++ (natLE 1 h.version1 ++ (natLE 1 h.version2 ++ natLE 1 h.version3)))))) := by
    rw [hbs]
    simp only [List.append_assoc]
    exact List.drop_left' (packStr_length 4 h.magic)
  have d8 : bs.drop 8 = natLE 1 h.unknown1 ++ (natLE 4 h.data_length
      ++ (natLE 2 h.delimiter ++ (packStr 80 h.description
      ++ (natLE 1 h.version1 ++ (natLE 1 h.version2 ++ natLE 1 h.version3))))) :=
    drop_decomp d4 (natLE_length 4 h.header_length)
  have d9 : bs.drop 9 = natLE 4 h.data_length ++ (natLE 2 h.delimiter
      ++ (packStr 80 h.description
      ++ (natLE 1 h.version1 ++ (natLE 1 h.version2 ++ natLE 1 h.version3)))) :=
    drop_decomp d8 (natLE_length 1 h.unknown1)
  have d13 : bs.drop 13 = natLE 2 h.delimiter ++ (packStr 80 h.description
      ++ (natLE 1 h.version1 ++ (natLE 1 h.version2 ++ natLE 1 h.version3))) :=
    drop_decomp d9 (natLE_length 4 h.data_length)
  have d15 : bs.drop 15 = packStr 80 h.description
      ++ (natLE 1 h.version1 ++ (natLE 1 h.version2 ++ natLE 1 h.version3)) :=
    drop_decomp d13 (natLE_length 2 h.delimiter)
  rw [d15, List.take_left' (packStr_length 80 h.description)]

/-- A header whose description is 81 bytes of ASCII "A". -/
def c4hdr : FLBHeader :=
  { magic := [70, 76, 66, 51]
    header_length := 139
    unknown1 := 0
    data_length := 0
    delimiter := 0
    description := List.replicate 81 65
    version1 := 0, version2 := 0, version3 := 0 }

/-- Counterexample to claim C4: a header whose description encodes to 81
bytes serializes successfully — `struct.pack('80s', …)` silently truncates —
instead of failing; the encoded description field holds only the first 80
bytes. -/
theorem C4_counterexample :
    c4hdr.description.length = 81
    ∧ (FLBHeader.writeToFLB c4hdr).isSome = true
    ∧ Option.map (fun bs => (bs.drop 15).take 80) (FLBHeader.writeToFLB c4hdr)
        = some (List.replicate 80 65) := by
  refine ⟨by rfl, by rfl, by rfl⟩

/-- Claim C4 as amended: for every header whose description (of any length)
and magic are ASCII-representable and whose numeric fields are in range,
serialization succeeds; when the description exceeds 80 bytes the encoded
field is silently truncated to its first 80 bytes (`struct.pack('80s', …)`
semantics).  Serialization fails only on non-ASCII bytes or out-of-range
numeric fields, never because the description is too long. -/
theorem C4_amended_silent_truncation (h : FLBHeader)
    (hm : asciiOk h.magic = true) (hd : asciiOk h.description = true)
    (h1 : h.header_length < 2 ^ 32) (h2 : h.unknown1 < 2 ^ 8) (h3 : h.data_length < 2 ^ 32)
    (h4 : h.delimiter < 2 ^ 16) (h5 : h.version1 < 2 ^ 8) (h6 : h.version2 < 2 ^ 8)
    (h7 : h.version3 < 2 ^ 8) (hlong : 80 < h.description.length) :
    ∃ bs, h.writeToFLB = some bs ∧ (bs.drop 15).take 80 = h.description.take 80 := by
  have hw : h.writeToFLB = some (packStr 4 h.magic ++ natLE 4 h.header_length
      ++ natLE 1 h.unknown1 ++ natLE 4 h.data_length ++ natLE 2 h.delimiter
      ++ packStr 80 h.description ++ natLE 1 h.version1 ++ natLE 1 h.version2
      ++ natLE 1 h.version3) := by
    unfold FLBHeader.writeToFLB
    norm_num at h1 h2 h3 h4 h5 h6 h7
    rw [if_pos (by simp [hm, hd, h1, h2, h3, h4, h5, h6, h7])]
  refine ⟨_, hw, ?_⟩
  rw [FLBHeader.writeToFLB_descField hw]
  simp [packStr, Nat.sub_eq_zero_of_le (Nat.le_of_lt hlong)]

theorem C4_amended_silent_truncation_witness :
    ∃ bs, FLBHeader.writeToFLB c4hdr = some bs
      ∧ (bs.drop 15).take 80 = c4hdr.description.take 80 :=
  C4_amended_silent_truncation c4hdr (by decide) (by decide) (by decide) (by decide)
    (by decide) (by decide) (by decide) (by decide) (by decide) (by decide)

/-- Concrete 144-byte buffer: one chunk header declaring `headerLength = 139`
and `dataLength = 10`, but only 5 payload bytes remain after the 139 header
bytes. -/
def c5buf : List Nat :=
  [70, 76, 66, 51] ++ natLE 4 139 ++ [0] ++ natLE 4 10 ++ natLE 2 34432
    ++ List.replicate 80 65 ++ [1, 0, 0] ++ natLE 4 2048 ++ List.replicate 37 0
    ++ [9, 9, 9, 9, 9]

/-- The header `FLBHeader.parse` decodes from `c5buf`. -/
def c5hdr : FLBHeader :=
  { magic := [70, 76, 66, 51]
    header_length := 139
    unknown1 := 0
    data_length := 10
    delimiter := 34432
    description := List.replicate 80 65
    version1 := 1, version2 := 0, version3 := 0 }

/-- The chunk the `extract_firmware` loop produces from `c5buf`. -/
def c5parsedChunk : FLBChunk :=
  { chunknum := 0
    header := c5hdr
    pcidetails := { flb_type := 2048, unknown := List.replicate 37 0 }
    pcidevices := []
    firmware := [9, 9, 9, 9, 9] }

/-- Counterexample to claim C5: on a buffer whose final chunk declares
`dataLength = 10` with only 5 payload bytes remaining, the container parse
does not fail: it returns one chunk whose payload is the 5 remaining bytes
(the Python payload slice clamps), and the loop terminates because the
cursor advanced past the end of the buffer. -/
theorem C5_counterexample :
    Option.map (fun cs => cs.map fun c => (c.header.data_length, c.firmware.length))
      (extract_firmware c5buf) = some [(10, 5)] := by
  have hp : FLBChunk.parse 0 c5buf = some (c5parsedChunk, 149) := by rfl
  have hdrop : c5buf.drop 149 = [] := by rfl
  have hchain : parseChunksFrom 0 c5buf = some [c5parsedChunk] :=
    parseChunksFrom_cons (by decide) hp (by rw [hdrop]; exact parseChunksFrom_nil 1)
  show Option.map _ (parseChunksFrom 0 c5buf) = _
  rw [hchain]
  rfl

/-- Claim C5 as amended: when the final chunk's declared `dataLength`
requires more bytes than remain (the buffer holds the 139 header bytes but
fewer than `dataLength` payload bytes, with `headerLength ≤ 139` so the
device region is empty), the container parse succeeds — no trailing-data
failure — and produces a single chunk with a short payload of exactly the
remaining bytes. -/
theorem C5_amended_short_payload (data : List Nat) (hdr : FLBHeader)
    (hlen : 139 ≤ data.length)
    (hparse : FLBHeader.parse (data.take 98) = some hdr)
    (hhl : hdr.header_length ≤ 139)
    (hshort : data.length < 139 + hdr.data_length) :
    ∃ c, extract_firmware data = some [c]
      ∧ c.header.data_length = hdr.data_length
      ∧ c.firmware.length = data.length - 139
      ∧ c.firmware.length < hdr.data_length := by
  have hp := FLBChunk.parse_small_header 0 data hdr hlen hparse hhl
  have hne : data ≠ [] := by
    intro hc
    rw [hc] at hlen
    simp at hlen
  have hdrop : data.drop (139 + hdr.data_length) = [] :=
    List.drop_eq_nil_of_le (by omega)
  have hchain : parseChunksFrom 0 data = some
      [{ chunknum := 0, header := hdr,
         pcidetails := { flb_type := leNat ((data.drop 98).take 4),
                         unknown := (data.drop 102).take 37 },
         pcidevices := [],
         firmware := (data.drop 139).take hdr.data_length }] :=
    parseChunksFrom_cons hne hp (by rw [hdrop]; exact parseChunksFrom_nil 1)
  have hfwlen : ((data.drop 139).take hdr.data_length).length = data.length - 139 := by
    simp only [List.length_take, List.length_drop]
    omega
  refine ⟨_, hchain, rfl, hfwlen, ?_⟩
  rw [hfwlen]
  omega

set_option maxRecDepth 8192 in
theorem C5_amended_short_payload_witness :
    ∃ c, extract_firmware c5buf = some [c]
      ∧ c.header.data_length = c5hdr.data_length
      ∧ c.firmware.length = c5buf.length - 139
      ∧ c.firmware.length < c5hdr.data_length :=
  C5_amended_short_payload c5buf c5hdr (by decide) (by rfl) (by decide) (by decide)

theorem C9_flbtype_preserved_witness :
    (PCIDetails.FLB_TYPES.all fun p => p.1 ≠ 3735928559) = true
    ∧ (PCIDetails.parse (natLE 4 3735928559 ++ List.replicate 37 0)
        = some ({ flb_type := 3735928559, unknown := List.replicate 37 0 }, 41)
      ∧ PCIDetails.writeToFLB { flb_type := 3735928559, unknown := List.replicate 37 0 }
        = some (natLE 4 3735928559 ++ List.replicate 37 0)) :=
  ⟨by decide, C9_flbtype_preserved 3735928559 (List.replicate 37 0)
    (by norm_num) (by simp) (by decide)⟩
